import Mathlib

/-!
Shallow embedding of the `password` credential manager (src/src/main.rs and
src/src/p2p.rs): the item data model, the detail-view focus navigator, the
store merge/serialize operations and the foreground sync state machine.

Modelling conventions: external leaf types that the program only stores and
prints (`EmailAddress`, `PhoneNumber`, `Url`, `jiff::civil::Date`,
`celes::Country`, `human_name::Name`) are modelled by their string form,
since no claim depends on their internal structure; `HashMap<String, Item>`
is modelled as an association list with distinct keys (stated as a
hypothesis where a theorem needs it); Rust `String` character buffers are
modelled as `List Char` (`push` appends, `pop` drops the last element).
-/

set_option autoImplicit false

namespace Password

/-- Sign-in providers, from `enum AuthProvider` (main.rs:86-91). -/
inductive AuthProvider
  | Google
  | Apple
  | Facebook
deriving DecidableEq

/-- Account status, from `enum AccountStatus` (main.rs:112-116). -/
inductive AccountStatus
  | Active
  | Deactivated
deriving DecidableEq

/-- Security question, from `struct SecurityQuestion` (main.rs:118-122). -/
structure SecurityQuestion where
  question : String
  answer : String
deriving DecidableEq

/-- Online account record, from `struct OnlineAccount` (main.rs:93-110).
The `account` field carries `#[serde(skip)]` in the source. -/
structure OnlineAccount where
  account : String
  username : Option String
  email : Option String
  phone : Option String
  sign_in_with : Option (List AuthProvider)
  password : Option String
  status : Option AccountStatus
  host_website : Option String
  login_pages : Option (List String)
  security_questions : Option (List SecurityQuestion)
  date_created : Option String
  two_factor_enabled : Option Bool
  associated_items : Option (List String)
  notes : Option String
deriving DecidableEq

/-- Social security record, from `struct SocialSecurity` (main.rs:76-84).
The `legal_name` field carries `#[serde(skip_serializing)]` with a
`default`-based deserializer in the source. -/
structure SocialSecurity where
  account_number : String
  legal_name : Option String
  issuance_date : Option String
  country_of_issue : Option String
deriving DecidableEq

/-- Credential item, from `enum Item` (main.rs:70-74). -/
inductive Item
  | OnlineAccount (account : OnlineAccount)
  | SocialSecurity (ssn : SocialSecurity)
deriving DecidableEq

/-- The password store, from `struct PasswordStore` (main.rs:65-68).
The `HashMap<String, Item>` is modelled as an association list. -/
structure PasswordStore where
  items : List (String × Item)
deriving DecidableEq

/-- Focusable detail-view fields, from `enum FocusableField` (main.rs:131-150). -/
inductive FocusableField
  | Username
  | Email
  | Phone
  | Password
  | Website
  | Status
  | TwoFactor
  | SignInProviders
  | DateCreated
  | SecurityQuestions
  | Notes
  | AccountNumber
  | LegalName
  | Country
  | IssuanceDate
deriving DecidableEq

/-- Model of `Iterator::position` as used by `fields.iter().position(|&field| field == f)`
in `focus_next` / `focus_prev` (main.rs:177,193). -/
def position {α : Type} [DecidableEq α] (f : α) : List α → Option Nat
  | [] => none
  | x :: xs => if x = f then some 0 else (position f xs).map (fun n => n + 1)

/-- Ordered available-field list, from `ItemDetailView::get_available_fields`
(main.rs:201-254): a chain of conditional pushes in a fixed order per variant. -/
def get_available_fields : Item → List FocusableField
  | .OnlineAccount account =>
    (if account.username.isSome then [FocusableField.Username] else [])
    ++ ((if account.email.isSome then [FocusableField.Email] else [])
    ++ ((if account.phone.isSome then [FocusableField.Phone] else [])
    ++ ((if account.password.isSome then [FocusableField.Password] else [])
    ++ ((if account.host_website.isSome then [FocusableField.Website] else [])
    ++ ((if account.status.isSome then [FocusableField.Status] else [])
    ++ ((if account.two_factor_enabled.isSome then [FocusableField.TwoFactor] else [])
    ++ ((if account.sign_in_with.any (fun p => !p.isEmpty) then [FocusableField.SignInProviders] else [])
    ++ ((if account.date_created.isSome then [FocusableField.DateCreated] else [])
    ++ ((if account.security_questions.isSome then [FocusableField.SecurityQuestions] else [])
    ++ (if account.notes.isSome then [FocusableField.Notes] else []))))))))))
  | .SocialSecurity ssn =>
    FocusableField.AccountNumber ::
    ((if ssn.legal_name.isSome then [FocusableField.LegalName] else [])
    ++ ((if ssn.country_of_issue.isSome then [FocusableField.Country] else [])
    ++ (if ssn.issuance_date.isSome then [FocusableField.IssuanceDate] else [])))

/-- Advance focus, from `ItemDetailView::focus_next` (main.rs:170-183).
Functional rendering: takes the current focus, returns the new focus. -/
def focus_next (item : Item) (cur : Option FocusableField) : Option FocusableField :=
  let fields := get_available_fields item
  if fields.isEmpty then
    cur
  else
    match cur.bind (fun f => position f fields) with
    | some current_idx => some (fields.getD ((current_idx + 1) % fields.length) FocusableField.Username)
    | none => some (fields.getD 0 FocusableField.Username)

/-- Retreat focus, from `ItemDetailView::focus_prev` (main.rs:186-199). -/
def focus_prev (item : Item) (cur : Option FocusableField) : Option FocusableField :=
  let fields := get_available_fields item
  if fields.isEmpty then
    cur
  else
    match cur.bind (fun f => position f fields) with
    | some current_idx =>
      some (fields.getD ((current_idx + fields.length - 1) % fields.length) FocusableField.Username)
    | none => some (fields.getD (fields.length - 1) FocusableField.Username)

/-- Render an auth provider's display name, from the match in
`App::get_focused_field_value` (main.rs:1154-1158). -/
def providerName : AuthProvider → String
  | .Google => "Google"
  | .Apple => "Apple"
  | .Facebook => "Facebook"

/-- Resolve the focused field of the current item to its display string, from
`App::get_focused_field_value` (main.rs:1135-1180). -/
def get_focused_field_value (item : Item) (focusedOpt : Option FocusableField) : Option String :=
  match focusedOpt with
  | none => none
  | some focused =>
    match item with
    | .OnlineAccount account =>
      match focused with
      | .Username => account.username
      | .Email => account.email
      | .Phone => account.phone
      | .Password => account.password
      | .Website => account.host_website
      | .Status => account.status.map (fun s =>
          match s with
          | .Active => "Active"
          | .Deactivated => "Deactivated")
      | .TwoFactor => account.two_factor_enabled.map (fun enabled => if enabled then "true" else "false")
      | .SignInProviders => account.sign_in_with.map (fun providers =>
          String.intercalate ", " (providers.map providerName))
      | .DateCreated => account.date_created
      | .SecurityQuestions => account.security_questions.map (fun qs =>
          String.intercalate "\n" (qs.map (fun q => "Q: " ++ q.question ++ " A: " ++ q.answer)))
      | .Notes => account.notes
      | _ => none
    | .SocialSecurity ssn =>
      match focused with
      | .AccountNumber => some ssn.account_number
      | .LegalName => ssn.legal_name
      | .Country => ssn.country_of_issue
      | .IssuanceDate => ssn.issuance_date
      | _ => none

/-! Store operations and serialization (main.rs:841-871, 846-853). -/

/-- `HashMap::insert` on the association-list model: replace the binding in
place if the key is present, otherwise append. -/
def insertStore (k : String) (v : Item) : List (String × Item) → List (String × Item)
  | [] => [(k, v)]
  | (k', v') :: rest => if k' = k then (k, v) :: rest else (k', v') :: insertStore k v rest

/-- `HashMap::get`-style lookup on the association-list model. -/
def lookupStore (k : String) : List (String × Item) → Option Item
  | [] => none
  | (k', v') :: rest => if k' = k then some v' else lookupStore k rest

/-- The merge loop of `App::deserialize_store` (main.rs:849-851): every
`(key, item)` pair of the received store is inserted into the current store,
overwriting on key collision. -/
def mergeStore (st : PasswordStore) (received : List (String × Item)) : PasswordStore :=
  ⟨received.foldl (fun acc kv => insertStore kv.1 kv.2 acc) st.items⟩

/-- Serialized image of an `OnlineAccount`: every field except `account`,
which carries `#[serde(skip)]` (main.rs:95) and is therefore neither written
nor read by the TOML round trip. -/
structure SerOnlineAccount where
  username : Option String
  email : Option String
  phone : Option String
  sign_in_with : Option (List AuthProvider)
  password : Option String
  status : Option AccountStatus
  host_website : Option String
  login_pages : Option (List String)
  security_questions : Option (List SecurityQuestion)
  date_created : Option String
  two_factor_enabled : Option Bool
  associated_items : Option (List String)
  notes : Option String
deriving DecidableEq

/-- Serialized image of a `SocialSecurity`: every field except `legal_name`,
which carries `#[serde(skip_serializing)]` (main.rs:80) and is therefore
never written; on deserialization the absent field defaults to `None`
(`#[serde(default)]`, main.rs:79). -/
structure SerSocialSecurity where
  account_number : String
  issuance_date : Option String
  country_of_issue : Option String
deriving DecidableEq

/-- Serialized image of an `Item` (externally tagged TOML enum). -/
inductive SerItem
  | OnlineAccount (account : SerOnlineAccount)
  | SocialSecurity (ssn : SerSocialSecurity)
deriving DecidableEq

/-- What `toml::to_string` writes for one item: all fields except those
marked as skipped by serde attributes. -/
def serializeItem : Item → SerItem
  | .OnlineAccount a =>
    .OnlineAccount ⟨a.username, a.email, a.phone, a.sign_in_with, a.password, a.status,
      a.host_website, a.login_pages, a.security_questions, a.date_created,
      a.two_factor_enabled, a.associated_items, a.notes⟩
  | .SocialSecurity s => .SocialSecurity ⟨s.account_number, s.issuance_date, s.country_of_issue⟩

/-- What `toml::from_str` reconstructs from a serialized item: the skipped
`account` field takes its `Default` value (the empty string) and the absent
`legal_name` field takes its `default` of `None`. -/
def deserializeItem : SerItem → Item
  | .OnlineAccount a =>
    .OnlineAccount ⟨"", a.username, a.email, a.phone, a.sign_in_with, a.password, a.status,
      a.host_website, a.login_pages, a.security_questions, a.date_created,
      a.two_factor_enabled, a.associated_items, a.notes⟩
  | .SocialSecurity s => .SocialSecurity ⟨s.account_number, none, s.issuance_date, s.country_of_issue⟩

/-- Byte buffers exchanged with the sync engine, modelled at the level the
program inspects them: either a well-formed TOML image of a store, or
malformed data that `App::deserialize_store` rejects with a parse error. -/
inductive Bytes
  | valid (entries : List (String × SerItem))
  | malformed (msg : String)
deriving DecidableEq

/-- `App::serialize_store` (main.rs:841-843): the TOML image of the store. -/
def serialize_store (st : PasswordStore) : Bytes :=
  .valid (st.items.map (fun kv => (kv.1, serializeItem kv.2)))

/-- The parse step of `App::deserialize_store` (main.rs:847). -/
def parseBytes : Bytes → Except String (List (String × Item))
  | .valid entries => .ok (entries.map (fun kv => (kv.1, deserializeItem kv.2)))
  | .malformed msg => .error msg

/-- `App::deserialize_store` (main.rs:846-853): parse the received bytes and
merge every received item into the current store. -/
def deserialize_store (st : PasswordStore) (data : Bytes) : Except String PasswordStore :=
  match parseBytes data with
  | .ok received => .ok (mergeStore st received)
  | .error e => .error e

/-- The empty password store (`PasswordStore::default`). -/
def emptyStore : PasswordStore := ⟨[]⟩

/-! The foreground sync state machine (p2p.rs:10-23, main.rs:893-919, 1224-1270). -/

/-- Foreground sync state, from `enum SyncState` (p2p.rs:10-23). The
`ReceiveInput` character buffer is modelled as a `List Char`. -/
inductive SyncState
  | Idle
  | Sharing (ticket : String)
  | ReceiveInput (input : List Char)
  | Receiving
  | Completed (message : String)
  | Error (message : String)
deriving DecidableEq

/-- Commands sent to the sync task, from `enum SyncCommand` (main.rs:47-51). -/
inductive SyncCommand
  | Share (data : Bytes)
  | Receive (ticket : List Char)
  | Cancel
deriving DecidableEq

/-- Results produced by the sync task, from `enum SyncResult` (main.rs:54-58). -/
inductive SyncResult
  | TicketGenerated (ticket : String)
  | DataReceived (data : Bytes)
  | Error (msg : String)
deriving DecidableEq

/-- `App::save_store` (main.rs:856-871) writes every item to disk; its
outcome depends on the file system, modelled by the `diskOk` flag. -/
def save_store (_st : PasswordStore) (diskOk : Bool) : Except String Unit :=
  if diskOk then .ok () else .error "io"

/-- One iteration of the result-folding loop of `App::poll_sync_results`
(main.rs:893-919), acting on the store and the sync state. `diskOk` models
whether `save_store`'s disk writes succeed; the source discards
`save_store`'s `Result` (`let _ = self.save_store();`, main.rs:902), which
is why the returned state does not depend on it. -/
def applySyncResult (st : PasswordStore) (_state : SyncState) (diskOk : Bool)
    (result : SyncResult) : PasswordStore × SyncState :=
  match result with
  | .TicketGenerated ticket => (st, .Sharing ticket)
  | .DataReceived data =>
    match deserialize_store st data with
    | .ok st' =>
      let _ := save_store st' diskOk
      (st', .Completed "Passwords received and saved!")
    | .error e => (st, .Error ("Failed to parse data: " ++ e))
  | .Error msg => (st, .Error msg)

/-- Key codes the sync overlay distinguishes, from the `crossterm` events
consumed by `App::handle_sync_key` (main.rs:1224-1270). -/
inductive KeyCode
  | Esc
  | Enter
  | Backspace
  | Char (c : Char)
  | Other
deriving DecidableEq

/-- A key event: the code plus whether the CONTROL modifier is held. -/
structure KeyEvent where
  code : KeyCode
  ctrl : Bool
deriving DecidableEq

/-- `App::handle_sync_key` (main.rs:1224-1270), returning the new sync state
and the commands dispatched on the command channel. `clipboard` models the
outcome of the Ctrl+V clipboard read (`None` when the clipboard is
unavailable). The `Sharing`/`Esc` arm inlines `App::cancel_sync`
(main.rs:887-890). -/
def handle_sync_key (state : SyncState) (ev : KeyEvent) (clipboard : Option (List Char)) :
    SyncState × List SyncCommand :=
  match state with
  | .Sharing _ =>
    match ev.code with
    | .Esc => (.Idle, [SyncCommand.Cancel])
    | _ => (state, [])
  | .ReceiveInput input =>
    match ev.code with
    | .Esc => (.Idle, [])
    | .Enter =>
      if input.isEmpty then (state, [])
      else (.Receiving, [SyncCommand.Receive input])
    | .Backspace => (.ReceiveInput input.dropLast, [])
    | .Char c =>
      if c = 'v' ∧ ev.ctrl then
        match clipboard with
        | some text => (.ReceiveInput (input ++ text), [])
        | none => (state, [])
      else (.ReceiveInput (input ++ [c]), [])
    | .Other => (state, [])
  | .Receiving => (state, [])
  | .Completed _ =>
    match ev.code with
    | .Esc | .Enter => (.Idle, [])
    | _ => (state, [])
  | .Error _ =>
    match ev.code with
    | .Esc | .Enter => (.Idle, [])
    | _ => (state, [])
  | .Idle => (state, [])

/-! Characterization material for the navigator claims. -/

/-- The fixed declaration order of OnlineAccount detail fields, as pushed by
`get_available_fields` (main.rs:203-239). -/
def onlineFieldOrder : List FocusableField :=
  [FocusableField.Username, FocusableField.Email, FocusableField.Phone,
   FocusableField.Password, FocusableField.Website, FocusableField.Status,
   FocusableField.TwoFactor, FocusableField.SignInProviders, FocusableField.DateCreated,
   FocusableField.SecurityQuestions, FocusableField.Notes]

/-- The fixed declaration order of SocialSecurity detail fields, as pushed by
`get_available_fields` (main.rs:240-252). -/
def socialFieldOrder : List FocusableField :=
  [FocusableField.AccountNumber, FocusableField.LegalName,
   FocusableField.Country, FocusableField.IssuanceDate]

/-- The population condition `get_available_fields` tests for each
OnlineAccount field; fields it never pushes map to `false`. -/
def onlineFieldPopulated (a : OnlineAccount) : FocusableField → Bool
  | .Username => a.username.isSome
  | .Email => a.email.isSome
  | .Phone => a.phone.isSome
  | .Password => a.password.isSome
  | .Website => a.host_website.isSome
  | .Status => a.status.isSome
  | .TwoFactor => a.two_factor_enabled.isSome
  | .SignInProviders => a.sign_in_with.any (fun p => !p.isEmpty)
  | .DateCreated => a.date_created.isSome
  | .SecurityQuestions => a.security_questions.isSome
  | .Notes => a.notes.isSome
  | _ => false

/-- The population condition `get_available_fields` tests for each
SocialSecurity field; `AccountNumber` is pushed unconditionally. -/
def socialFieldPopulated (s : SocialSecurity) : FocusableField → Bool
  | .AccountNumber => true
  | .LegalName => s.legal_name.isSome
  | .Country => s.country_of_issue.isSome
  | .IssuanceDate => s.issuance_date.isSome
  | _ => false

/-- Stated from the spec's words for the available-field count claim: the
number of populated optional fields of an item, counting every optional
field the data model declares (thirteen for OnlineAccount, three for
SocialSecurity). -/
def specPopulatedOptionalCount : Item → Nat
  | .OnlineAccount a =>
    ([a.username.isSome, a.email.isSome, a.phone.isSome, a.sign_in_with.isSome,
      a.password.isSome, a.status.isSome, a.host_website.isSome, a.login_pages.isSome,
      a.security_questions.isSome, a.date_created.isSome, a.two_factor_enabled.isSome,
      a.associated_items.isSome, a.notes.isSome] : List Bool).count true
  | .SocialSecurity s =>
    ([s.legal_name.isSome, s.issuance_date.isSome, s.country_of_issue.isSome] : List Bool).count true

/-! Helper lemmas. -/

theorem ite_singleton_append {α : Type} (c : Prop) [Decidable c] (x : α) (l : List α) :
    (if c then [x] else []) ++ l = if c then x :: l else l := by
  split <;> simp

theorem availableFields_online (a : OnlineAccount) :
    get_available_fields (Item.OnlineAccount a)
      = onlineFieldOrder.filter (onlineFieldPopulated a) := by
  simp only [get_available_fields, onlineFieldOrder, onlineFieldPopulated,
    List.filter_cons, List.filter_nil, ite_singleton_append, List.append_nil]

theorem availableFields_social (s : SocialSecurity) :
    get_available_fields (Item.SocialSecurity s)
      = socialFieldOrder.filter (socialFieldPopulated s) := by
  simp only [get_available_fields, socialFieldOrder, socialFieldPopulated,
    List.filter_cons, List.filter_nil, ite_singleton_append, List.append_nil,
    if_true]

theorem availableFields_nodup (item : Item) : (get_available_fields item).Nodup := by
  cases item with
  | OnlineAccount a =>
    rw [availableFields_online]
    exact List.Nodup.filter _ (by decide)
  | SocialSecurity s =>
    rw [availableFields_social]
    exact List.Nodup.filter _ (by decide)

theorem position_getElem {α : Type} [DecidableEq α] :
    ∀ (l : List α), l.Nodup → ∀ (i : Nat) (hi : i < l.length), position l[i] l = some i
  | [], _, i, hi => absurd hi (by simp)
  | x :: xs, hnd, 0, _ => by simp [position]
  | x :: xs, hnd, i + 1, hi => by
    have hx : x ∉ xs := (List.nodup_cons.mp hnd).1
    have hxs : xs.Nodup := (List.nodup_cons.mp hnd).2
    have hi' : i < xs.length := by simpa using hi
    have hne : x ≠ xs[i] := by
      intro hxeq
      exact hx (hxeq ▸ xs.getElem_mem hi')
    simp [position, hne, List.getElem_cons_succ, position_getElem xs hxs i hi']

theorem focus_next_none (item : Item) (h : get_available_fields item ≠ []) :
    focus_next item none = some ((get_available_fields item).getD 0 FocusableField.Username) := by
  have hne : (get_available_fields item).isEmpty = false := by simpa [List.isEmpty_iff] using h
  simp [focus_next, hne]

theorem focus_next_at (item : Item) (i : Nat) (hi : i < (get_available_fields item).length) :
    focus_next item (some ((get_available_fields item).getD i FocusableField.Username))
      = some ((get_available_fields item).getD
          ((i + 1) % (get_available_fields item).length) FocusableField.Username) := by
  have h0 : get_available_fields item ≠ [] := by
    intro he
    rw [he] at hi
    simp at hi
  have hne : (get_available_fields item).isEmpty = false := by
    simpa [List.isEmpty_iff] using h0
  have hpos := position_getElem _ (availableFields_nodup item) i hi
  rw [List.getD_eq_getElem _ _ hi]
  unfold focus_next
  simp only [hne, Bool.false_eq_true, if_false, Option.some_bind, hpos]

theorem focus_next_iterate (item : Item) :
    ∀ (k : Nat), k < (get_available_fields item).length →
      (focus_next item)^[k + 1] none
        = some ((get_available_fields item).getD k FocusableField.Username) := by
  intro k
  induction k with
  | zero =>
    intro hk
    have h : get_available_fields item ≠ [] := by
      intro he
      rw [he] at hk
      simp at hk
    simpa using focus_next_none item h
  | succ k ih =>
    intro hk
    rw [Function.iterate_succ_apply', ih (by omega), focus_next_at item k (by omega),
      Nat.mod_eq_of_lt hk]

/-- C4 (counterexample): an OnlineAccount whose only populated optional field
is `login_pages`. -/
def loginPagesOnlyAccount : OnlineAccount :=
  ⟨"", none, none, none, none, none, none, none, some ["https://a.example"],
   none, none, none, none, none⟩

/-- C4 counterexample: the claim fails on the code. `loginPagesOnlyAccount`
has exactly one populated optional field (`login_pages`), yet the
navigator's available-field list is empty: `get_available_fields` never
produces an entry for `login_pages` (or `associated_items`). -/
theorem available_fields_count_cex :
    specPopulatedOptionalCount (Item.OnlineAccount loginPagesOnlyAccount) = 1
    ∧ (get_available_fields (Item.OnlineAccount loginPagesOnlyAccount)).length = 0 := by
  decide

/-- C4 (amended): the available-field list has exactly one entry per
populated navigable field, in the declared variant order: for OnlineAccount
these are the eleven fields of `onlineFieldOrder` (with `SignInProviders`
counting only when the provider list is present and non-empty, and with
`login_pages` and `associated_items` never contributing an entry); for
SocialSecurity, the unconditional `AccountNumber` entry followed by the
populated fields among LegalName, Country, IssuanceDate. -/
theorem available_fields_characterization :
    (∀ a : OnlineAccount, get_available_fields (Item.OnlineAccount a)
        = onlineFieldOrder.filter (onlineFieldPopulated a))
    ∧ (∀ s : SocialSecurity, get_available_fields (Item.SocialSecurity s)
        = socialFieldOrder.filter (socialFieldPopulated s)) :=
  ⟨availableFields_online, availableFields_social⟩

/-- C5: for every item whose available-field list has N ≥ 1 entries, the
trajectory of `focus_next` composed 1..N times from `None` is exactly the
available-field list itself: all N fields are visited exactly once, in
order, with no skips and no repeats (the list is duplicate-free), so the
first field is visited exactly once. -/
theorem focus_next_cycles (item : Item) (_h : get_available_fields item ≠ []) :
    (List.range (get_available_fields item).length).map
        (fun k => (focus_next item)^[k + 1] none)
      = (get_available_fields item).map some
    ∧ (get_available_fields item).Nodup := by
  refine ⟨?_, availableFields_nodup item⟩
  apply List.ext_getElem (by simp)
  intro i h1 h2
  have hi : i < (get_available_fields item).length := by simpa using h2
  simp only [List.getElem_map, List.getElem_range]
  rw [focus_next_iterate item i hi, List.getD_eq_getElem _ _ hi]

/-- C5 scenario item: an OnlineAccount with only `username` and `password`
populated, so the available fields are `[Username, Password]`. -/
def scenarioAAccount : Item :=
  Item.OnlineAccount ⟨"", some "alice", none, none, none, some "hunter2",
    none, none, none, none, none, none, none, none⟩

/-- C5 witness: the cyclic-visit theorem applied to `scenarioAAccount`,
whose two-element available-field list is concretely `[Username, Password]`. -/
theorem focus_next_cycles_witness :
    ((List.range (get_available_fields scenarioAAccount).length).map
        (fun k => (focus_next scenarioAAccount)^[k + 1] none)
      = (get_available_fields scenarioAAccount).map some
    ∧ (get_available_fields scenarioAAccount).Nodup)
    ∧ get_available_fields scenarioAAccount
        = [FocusableField.Username, FocusableField.Password] :=
  ⟨focus_next_cycles scenarioAAccount (by decide), by decide⟩

/-- C6: for every item with a non-empty available-field list, `focus_prev`
from focus `None` selects the last element of the list. -/
theorem focus_prev_none_last (item : Item) (h : get_available_fields item ≠ []) :
    focus_prev item none = some ((get_available_fields item).getLast h) := by
  have hpos : 0 < (get_available_fields item).length := List.length_pos.mpr h
  have hne : (get_available_fields item).isEmpty = false := by simpa [List.isEmpty_iff] using h
  simp only [focus_prev, hne, Bool.false_eq_true, if_false, Option.none_bind,
    List.getLast_eq_getElem]
  rw [List.getD_eq_getElem _ _ (by omega)]

/-- C6 witness: `focus_prev` from `None` on `scenarioAAccount` selects the
last available field, concretely `Password` and not `Username`. -/
theorem focus_prev_none_last_witness :
    focus_prev scenarioAAccount none
      = some ((get_available_fields scenarioAAccount).getLast (by decide))
    ∧ focus_prev scenarioAAccount none = some FocusableField.Password :=
  ⟨focus_prev_none_last scenarioAAccount (by decide), by decide⟩

/-- C9: for every item and every current focus, if the available-field list
is empty both navigation operations leave the focus unchanged, and if it is
non-empty both produce `some f` for a field `f` that is a member of the
list. -/
theorem focus_navigation_invariant (item : Item) (cur : Option FocusableField) :
    (get_available_fields item = [] →
      focus_next item cur = cur ∧ focus_prev item cur = cur)
    ∧ (get_available_fields item ≠ [] →
      (∃ f ∈ get_available_fields item, focus_next item cur = some f)
      ∧ (∃ g ∈ get_available_fields item, focus_prev item cur = some g)) := by
  constructor
  · intro he
    have hemp : (get_available_fields item).isEmpty = true := by simp [he]
    constructor <;> simp [focus_next, focus_prev, hemp]
  · intro h
    have hpos : 0 < (get_available_fields item).length := List.length_pos.mpr h
    have hne : (get_available_fields item).isEmpty = false := by
      simpa [List.isEmpty_iff] using h
    constructor
    · cases hb : cur.bind (fun f => position f (get_available_fields item)) with
      | none =>
        refine ⟨(get_available_fields item).getD 0 FocusableField.Username, ?_, ?_⟩
        · rw [List.getD_eq_getElem _ _ hpos]
          exact List.getElem_mem _
        · simp [focus_next, hne, hb]
      | some i =>
        have hlt : (i + 1) % (get_available_fields item).length
            < (get_available_fields item).length := Nat.mod_lt _ hpos
        refine ⟨(get_available_fields item).getD ((i + 1) % (get_available_fields item).length)
          FocusableField.Username, ?_, ?_⟩
        · rw [List.getD_eq_getElem _ _ hlt]
          exact List.getElem_mem _
        · simp [focus_next, hne, hb]
    · cases hb : cur.bind (fun f => position f (get_available_fields item)) with
      | none =>
        refine ⟨(get_available_fields item).getD ((get_available_fields item).length - 1)
          FocusableField.Username, ?_, ?_⟩
        · rw [List.getD_eq_getElem _ _ (by omega)]
          exact List.getElem_mem _
        · simp [focus_prev, hne, hb]
      | some i =>
        have hlt : (i + (get_available_fields item).length - 1)
            % (get_available_fields item).length
            < (get_available_fields item).length := Nat.mod_lt _ hpos
        refine ⟨(get_available_fields item).getD
          ((i + (get_available_fields item).length - 1)
            % (get_available_fields item).length) FocusableField.Username, ?_, ?_⟩
        · rw [List.getD_eq_getElem _ _ hlt]
          exact List.getElem_mem _
        · simp [focus_prev, hne, hb]

/-- C9 witness: on an item with available fields (a SocialSecurity record,
list `[AccountNumber]`) both operations land inside the list, and on an item
with no available fields (an OnlineAccount with nothing populated) both
leave an arbitrary current focus unchanged. -/
theorem focus_navigation_invariant_witness :
    ((∃ f ∈ get_available_fields (Item.SocialSecurity ⟨"1", none, none, none⟩),
        focus_next (Item.SocialSecurity ⟨"1", none, none, none⟩) none = some f)
      ∧ (∃ g ∈ get_available_fields (Item.SocialSecurity ⟨"1", none, none, none⟩),
        focus_prev (Item.SocialSecurity ⟨"1", none, none, none⟩) none = some g))
    ∧ (focus_next (Item.OnlineAccount ⟨"", none, none, none, none, none, none, none,
          none, none, none, none, none, none⟩) (some FocusableField.Email)
        = some FocusableField.Email
      ∧ focus_prev (Item.OnlineAccount ⟨"", none, none, none, none, none, none, none,
          none, none, none, none, none, none⟩) (some FocusableField.Email)
        = some FocusableField.Email) :=
  ⟨(focus_navigation_invariant (Item.SocialSecurity ⟨"1", none, none, none⟩) none).2
      (by decide),
   (focus_navigation_invariant (Item.OnlineAccount ⟨"", none, none, none, none, none, none,
      none, none, none, none, none, none, none⟩) (some FocusableField.Email)).1 (by decide)⟩

/-! Store lemmas: insert, lookup and merge on the association-list model. -/

theorem lookupStore_insertStore_self (k : String) (v : Item) :
    ∀ st, lookupStore k (insertStore k v st) = some v
  | [] => by simp [insertStore, lookupStore]
  | (k', v') :: rest => by
    by_cases h : k' = k
    · simp [insertStore, lookupStore, h]
    · simp [insertStore, lookupStore, h, lookupStore_insertStore_self k v rest]

theorem lookupStore_insertStore_ne (k k1 : String) (v1 : Item) (hne : k1 ≠ k) :
    ∀ st, lookupStore k (insertStore k1 v1 st) = lookupStore k st
  | [] => by simp [insertStore, lookupStore, hne]
  | (k', v') :: rest => by
    by_cases h : k' = k1
    · subst h
      simp [insertStore, lookupStore, hne]
    · by_cases h2 : k' = k
      · simp [insertStore, lookupStore, h, h2, Ne.symm hne]
      · simp [insertStore, lookupStore, h, h2, lookupStore_insertStore_ne k k1 v1 hne rest]

theorem lookupStore_foldl_not_mem (k : String) :
    ∀ (p : List (String × Item)) (st : List (String × Item)), k ∉ p.map Prod.fst →
      lookupStore k (p.foldl (fun acc kv => insertStore kv.1 kv.2 acc) st) = lookupStore k st
  | [], _, _ => rfl
  | (k1, v1) :: rest, st, hk => by
    have hne : k1 ≠ k := by
      intro he
      exact hk (by simp [he])
    have hrest : k ∉ rest.map Prod.fst := fun hmem => hk (by simp [hmem])
    rw [List.foldl_cons, lookupStore_foldl_not_mem k rest _ hrest,
      lookupStore_insertStore_ne k k1 v1 hne st]

theorem insertStore_lookup_eq (k : String) (v : Item) :
    ∀ st, lookupStore k st = some v → insertStore k v st = st
  | [], h => by simp [lookupStore] at h
  | (k', v') :: rest, h => by
    by_cases hk : k' = k
    · subst hk
      have hv : v' = v := by simpa [lookupStore] using h
      simp [insertStore, hv]
    · simp only [lookupStore, if_neg hk] at h
      simp [insertStore, hk, insertStore_lookup_eq k v rest h]

theorem foldl_insert_idem :
    ∀ (p : List (String × Item)), (p.map Prod.fst).Nodup → ∀ st,
      p.foldl (fun acc kv => insertStore kv.1 kv.2 acc)
        (p.foldl (fun acc kv => insertStore kv.1 kv.2 acc) st)
      = p.foldl (fun acc kv => insertStore kv.1 kv.2 acc) st
  | [], _, _ => rfl
  | (k, v) :: rest, hnd, st => by
    rw [List.map_cons] at hnd
    have hk : k ∉ rest.map Prod.fst := (List.nodup_cons.mp hnd).1
    have hrest : (rest.map Prod.fst).Nodup := (List.nodup_cons.mp hnd).2
    simp only [List.foldl_cons]
    have hlook : lookupStore k
        (rest.foldl (fun acc kv => insertStore kv.1 kv.2 acc) (insertStore k v st)) = some v := by
      rw [lookupStore_foldl_not_mem k rest _ hk, lookupStore_insertStore_self k v st]
    rw [insertStore_lookup_eq k v _ hlook]
    exact foldl_insert_idem rest hrest (insertStore k v st)

/-- C7: the merge used on sync-receive is idempotent. For every local store
and every received payload (an association list with distinct keys, the
image of the received `HashMap`), merging the same payload twice yields the
same store as merging it once. -/
theorem merge_idempotent (st : PasswordStore) (p : List (String × Item))
    (hkeys : (p.map Prod.fst).Nodup) :
    mergeStore (mergeStore st p) p = mergeStore st p :=
  congrArg PasswordStore.mk (foldl_insert_idem p hkeys st.items)

/-- C7 witness payload: two items, one colliding with the local store's key. -/
def wPayload : List (String × Item) :=
  [("a", Item.SocialSecurity ⟨"2", none, none, none⟩),
   ("b", Item.SocialSecurity ⟨"3", none, none, none⟩)]

/-- C7 witness local store. -/
def wLocal : PasswordStore := ⟨[("a", Item.SocialSecurity ⟨"1", none, none, none⟩)]⟩

/-- C7 witness: idempotence at a concrete store and payload with a key
collision; the payload's keys are distinct. -/
theorem merge_idempotent_witness :
    (wPayload.map Prod.fst).Nodup
    ∧ mergeStore (mergeStore wLocal wPayload) wPayload = mergeStore wLocal wPayload :=
  ⟨by decide, merge_idempotent wLocal wPayload (by decide)⟩

/-! Serialization round trip (C1). -/

/-- An item is unchanged by dropping its serde-skipped fields exactly when
those fields already hold their defaults: an OnlineAccount's `account` is
the empty string and a SocialSecurity's `legal_name` is `None`. -/
def itemKeepsSkippedDefaults : Item → Bool
  | .OnlineAccount a => decide (a.account = "")
  | .SocialSecurity s => decide (s.legal_name = none)

theorem deserialize_serialize_eq :
    ∀ i : Item, itemKeepsSkippedDefaults i = true → deserializeItem (serializeItem i) = i
  | .OnlineAccount a, h => by
    obtain ⟨acct, u, e, ph, si, pw, stt, hw, lp, sq, dc, tf, ai, nt⟩ := a
    simp only [itemKeepsSkippedDefaults, decide_eq_true_eq] at h
    simp [serializeItem, deserializeItem, h]
  | .SocialSecurity s, h => by
    obtain ⟨an, ln, idt, ci⟩ := s
    simp only [itemKeepsSkippedDefaults, decide_eq_true_eq] at h
    simp [serializeItem, deserializeItem, h]

theorem lookupStore_append (k : String) :
    ∀ (l1 l2 : List (String × Item)), lookupStore k (l1 ++ l2)
      = match lookupStore k l1 with
        | some v => some v
        | none => lookupStore k l2
  | [], _ => rfl
  | (k', v') :: rest, l2 => by
    by_cases h : k' = k
    · simp [lookupStore, h]
    · simp [lookupStore, h, lookupStore_append k rest l2]

theorem insertStore_not_bound (k : String) (v : Item) :
    ∀ st, lookupStore k st = none → insertStore k v st = st ++ [(k, v)]
  | [], _ => rfl
  | (k', v') :: rest, h => by
    by_cases hk : k' = k
    · subst hk
      simp [lookupStore] at h
    · simp only [lookupStore, if_neg hk] at h
      simp [insertStore, hk, insertStore_not_bound k v rest h]

theorem foldl_insert_fresh :
    ∀ (l pre : List (String × Item)), (l.map Prod.fst).Nodup →
      (∀ k ∈ l.map Prod.fst, lookupStore k pre = none) →
      l.foldl (fun acc kv => insertStore kv.1 kv.2 acc) pre = pre ++ l
  | [], pre, _, _ => by simp
  | (k, v) :: rest, pre, hnd, hfresh => by
    rw [List.map_cons] at hnd
    have hk : k ∉ rest.map Prod.fst := (List.nodup_cons.mp hnd).1
    have hrest : (rest.map Prod.fst).Nodup := (List.nodup_cons.mp hnd).2
    have hkpre : lookupStore k pre = none := hfresh k (by simp)
    simp only [List.foldl_cons]
    rw [insertStore_not_bound k v pre hkpre]
    rw [foldl_insert_fresh rest (pre ++ [(k, v)]) hrest ?_]
    · simp
    · intro k' hk'
      rw [lookupStore_append k' pre [(k, v)]]
      have hne : k ≠ k' := by
        intro he
        exact hk (he ▸ hk')
      rw [hfresh k' (by simp [hk'])]
      simp [lookupStore, hne]

theorem mergeStore_empty (l : List (String × Item)) (h : (l.map Prod.fst).Nodup) :
    mergeStore emptyStore l = ⟨l⟩ := by
  unfold mergeStore emptyStore
  rw [foldl_insert_fresh l [] h (fun k _ => rfl)]
  simp

/-- C1 (counterexample source): a store holding one SocialSecurity item with
a populated `legal_name`. -/
def ssnLegalNameStore : PasswordStore :=
  ⟨[("id", Item.SocialSecurity ⟨"123456789", some "John Doe", none, none⟩)]⟩

/-- C1 counterexample: the round trip is not the identity. Serializing a
store containing a SocialSecurity item whose `legal_name` is populated and
deserializing the result yields a store whose `legal_name` is `None`
(`#[serde(skip_serializing)]` drops the field on the way out), so the claim
fails at this store. -/
theorem serialize_roundtrip_cex :
    deserialize_store emptyStore (serialize_store ssnLegalNameStore)
      = Except.ok (⟨[("id", Item.SocialSecurity ⟨"123456789", none, none, none⟩)]⟩ : PasswordStore)
    ∧ (⟨[("id", Item.SocialSecurity ⟨"123456789", none, none, none⟩)]⟩ : PasswordStore)
      ≠ ssnLegalNameStore :=
  ⟨rfl, by decide⟩

/-- C1 (amended): serialization round-trips exactly on stores whose items
carry their serde-skipped fields at the defaults — every OnlineAccount's
`account` is the empty string (it is `#[serde(skip)]`) and every
SocialSecurity's `legal_name` is `None` (it is `#[serde(skip_serializing)]`).
For such stores, with distinct keys as the `HashMap` guarantees,
deserializing the serialized bytes into an empty store reproduces the store
under key/field equality; this covers both item variants, all remaining
present/absent optional-field combinations, and the empty store. -/
theorem serialize_roundtrip (st : PasswordStore)
    (hkeys : (st.items.map Prod.fst).Nodup)
    (hitems : ∀ kv ∈ st.items, itemKeepsSkippedDefaults kv.2 = true) :
    deserialize_store emptyStore (serialize_store st) = Except.ok st := by
  have hmap : (st.items.map (fun kv => (kv.1, serializeItem kv.2))).map
      (fun kv => (kv.1, deserializeItem kv.2)) = st.items := by
    rw [List.map_map]
    conv_rhs => rw [← List.map_id st.items]
    apply List.map_congr_left
    intro kv hkv
    simp [Function.comp, deserialize_serialize_eq kv.2 (hitems kv hkv)]
  simp only [serialize_store, deserialize_store, parseBytes]
  rw [hmap, mergeStore_empty st.items hkeys]

/-- C1 witness store: both variants, a mix of present and absent optional
fields, skipped fields at their defaults. -/
def mixedStore : PasswordStore :=
  ⟨[("acct", Item.OnlineAccount ⟨"", some "alice", none, none, none, some "hunter2",
      none, none, none, none, none, some true, none, none⟩),
    ("ssn", Item.SocialSecurity ⟨"123456789", none, some "2020-01-01", some "United States"⟩)]⟩

/-- C1 witness: the amended round-trip theorem applied to `mixedStore`,
whose keys are distinct and whose skipped fields are at their defaults. -/
theorem serialize_roundtrip_witness :
    (mixedStore.items.map Prod.fst).Nodup
    ∧ (∀ kv ∈ mixedStore.items, itemKeepsSkippedDefaults kv.2 = true)
    ∧ deserialize_store emptyStore (serialize_store mixedStore) = Except.ok mixedStore :=
  ⟨by decide, by decide, serialize_roundtrip mixedStore (by decide) (by decide)⟩

/-! The sync result fold and the sync key handler (C2, C3, C8, C10). -/

/-- A well-formed received payload used as a concrete sync result. -/
def receivedBytes : Bytes := .valid [("k", SerItem.SocialSecurity ⟨"1", none, none⟩)]

/-- The store that merging `receivedBytes` into the empty store produces. -/
def receivedStore : PasswordStore := ⟨[("k", Item.SocialSecurity ⟨"1", none, none, none⟩)]⟩

/-- C2: the claim is right and the code is wrong. `App::poll_sync_results`
folds results with no check of the current state: at the concrete stale
input (state `Idle`, a late `TicketGenerated "t"`) the fold sets the state
to `Sharing "t"` instead of leaving it unchanged, and a late `DataReceived`
at `Idle` merges into the store and reports `Completed`, instead of being
dropped silently as the specification requires. -/
theorem stale_results_applied :
    applySyncResult emptyStore SyncState.Idle true (SyncResult.TicketGenerated "t")
      = (emptyStore, SyncState.Sharing "t")
    ∧ SyncState.Sharing "t" ≠ SyncState.Idle
    ∧ applySyncResult emptyStore SyncState.Idle true (SyncResult.DataReceived receivedBytes)
      = (receivedStore, SyncState.Completed "Passwords received and saved!")
    ∧ receivedStore ≠ emptyStore :=
  ⟨rfl, by decide, rfl, by decide⟩

/-- C3: the claim is right and the code is wrong. When the received payload
parses and merges successfully but `save_store` fails (`diskOk = false`,
so `save_store` returns an error), the fold still reports the plain-success
state `Completed "Passwords received and saved!"`: the source discards
`save_store`'s `Result` (`let _ = self.save_store();`), so a save failure is
not reported distinctly from anything — it is not reported at all. -/
theorem save_failure_reported_as_success :
    applySyncResult emptyStore SyncState.Receiving false (SyncResult.DataReceived receivedBytes)
      = (receivedStore, SyncState.Completed "Passwords received and saved!")
    ∧ save_store receivedStore false = Except.error "io" :=
  ⟨rfl, rfl⟩

/-- C8: in the `ReceiveInput` state the key handler behaves as specified: a
typed character (any `Char` key other than the Ctrl+V paste chord) appends
to the input buffer, backspace drops the last character, cancel (Esc)
returns to `Idle`, confirm (Enter) with non-empty input moves to `Receiving`
and dispatches `Receive(input)`, and confirm with empty input changes
nothing and dispatches nothing. -/
theorem receive_input_transitions (input : List Char) (clipboard : Option (List Char)) :
    (∀ (c : Char) (ctrl : Bool), ¬(c = 'v' ∧ ctrl = true) →
      handle_sync_key (SyncState.ReceiveInput input) ⟨KeyCode.Char c, ctrl⟩ clipboard
        = (SyncState.ReceiveInput (input ++ [c]), []))
    ∧ (∀ ctrl : Bool,
      handle_sync_key (SyncState.ReceiveInput input) ⟨KeyCode.Backspace, ctrl⟩ clipboard
        = (SyncState.ReceiveInput input.dropLast, []))
    ∧ (∀ ctrl : Bool,
      handle_sync_key (SyncState.ReceiveInput input) ⟨KeyCode.Esc, ctrl⟩ clipboard
        = (SyncState.Idle, []))
    ∧ (input ≠ [] → ∀ ctrl : Bool,
      handle_sync_key (SyncState.ReceiveInput input) ⟨KeyCode.Enter, ctrl⟩ clipboard
        = (SyncState.Receiving, [SyncCommand.Receive input]))
    ∧ (input = [] → ∀ ctrl : Bool,
      handle_sync_key (SyncState.ReceiveInput input) ⟨KeyCode.Enter, ctrl⟩ clipboard
        = (SyncState.ReceiveInput input, [])) := by
  refine ⟨?_, fun _ => rfl, fun _ => rfl, ?_, ?_⟩
  · intro c ctrl h
    simp only [handle_sync_key]
    rw [if_neg h]
  · intro hne ctrl
    have hemp : input.isEmpty = false := by simpa [List.isEmpty_iff] using hne
    simp [handle_sync_key, hemp]
  · intro heq ctrl
    subst heq
    rfl

/-- C8 witness, end-to-end scenario C: buffer "xyz", Enter pressed, the
state becomes `Receiving` and a `Receive "xyz"` command is dispatched; and
a typed character is appended. -/
theorem receive_input_transitions_witness :
    handle_sync_key (SyncState.ReceiveInput ['x', 'y', 'z']) ⟨KeyCode.Enter, false⟩ none
      = (SyncState.Receiving, [SyncCommand.Receive ['x', 'y', 'z']])
    ∧ handle_sync_key (SyncState.ReceiveInput ['x', 'y']) ⟨KeyCode.Char 'z', false⟩ none
      = (SyncState.ReceiveInput ['x', 'y', 'z'], []) :=
  ⟨(receive_input_transitions ['x', 'y', 'z'] none).2.2.2.1 (by decide) false,
   (receive_input_transitions ['x', 'y'] none).1 'z' false (by decide)⟩

/-- C10: `get_focused_field_value` returns `None` whenever no field is
focused, and whenever the focused field does not belong to the selected
item's variant (the variants' field sets being `onlineFieldOrder` and
`socialFieldOrder`); it never resolves a field of the other variant. -/
theorem focused_value_respects_variant (item : Item) (f : FocusableField) :
    get_focused_field_value item none = none
    ∧ (∀ a, item = Item.OnlineAccount a → f ∉ onlineFieldOrder →
        get_focused_field_value item (some f) = none)
    ∧ (∀ s, item = Item.SocialSecurity s → f ∉ socialFieldOrder →
        get_focused_field_value item (some f) = none) := by
  refine ⟨rfl, ?_, ?_⟩
  · rintro a rfl hf
    cases f <;> first
      | rfl
      | exact absurd (by decide) hf
  · rintro s rfl hf
    cases f <;> first
      | rfl
      | exact absurd (by decide) hf

/-- C10 witness: with `AccountNumber` focused while an OnlineAccount is
selected the resolved value is `None`, and with no focus it is `None`. -/
theorem focused_value_respects_variant_witness :
    get_focused_field_value scenarioAAccount none = none
    ∧ get_focused_field_value scenarioAAccount (some FocusableField.AccountNumber) = none :=
  ⟨(focused_value_respects_variant scenarioAAccount FocusableField.AccountNumber).1,
   (focused_value_respects_variant scenarioAAccount FocusableField.AccountNumber).2.1
      _ rfl (by decide)⟩

end Password
